import Mathlib

/-!
Shallow embedding of the `mmv` crate (src/src/lib.rs): an encoder for the
MMV shared-memory metrics format, a view splitter handing each metric an
8-byte value slot inside the mapping, and the value updater.

The memory mapping is modelled as a total byte function `Nat → Nat`
together with the size computed by `MMV::map`; every write the Rust code
performs through its cursor becomes an explicit `(offset, bytes)` event,
and the final image is the left fold of `store` over the event list, which
preserves the exact order in which `write_mmv` emits its writes.
Machine integers are `Nat`/`Int` with explicit `% 2 ^ 32` / `% 2 ^ 64`
where the code truncates; `f64` values are carried by their IEEE-754 bit
pattern (the code only ever stores and reloads those 64 bits, it never
computes with them). Fallible operations return `Except`.

The file is laid out as definitions first, then the theorems about them.
-/

namespace MMVSpec

/-! ## Format constants (src/src/lib.rs lines 15-20) -/

def HDR_LEN : Nat := 40
def TOC_BLOCK_LEN : Nat := 16
def METRIC_BLOCK_LEN : Nat := 104
def VALUE_BLOCK_LEN : Nat := 32
def STRING_BLOCK_LEN : Nat := 256
def METRIC_NAME_MAX_LEN : Nat := 64

/-! ## Little-endian encodings

`byteorder`'s `write_u32::<LittleEndian>` / `write_u64` / `write_i64`
emit the fixed-width little-endian bytes of the machine integer. -/

/-- Little-endian byte list of width `w` for the value `v` (truncating). -/
def leBytes : Nat → Nat → List Nat
  | 0, _ => []
  | w + 1, v => v % 256 :: leBytes w (v / 256)

/-- `write_u32::<LittleEndian>`: 4 little-endian bytes, truncating to 32 bits. -/
def le32 (v : Nat) : List Nat := leBytes 4 v

/-- `write_u64::<LittleEndian>`: 8 little-endian bytes, truncating to 64 bits. -/
def le64 (v : Nat) : List Nat := leBytes 8 v

/-- Two's-complement 64-bit pattern of a signed integer. -/
def i64ToBits (x : Int) : Nat := (x % (2 : Int) ^ 64).toNat

/-- `write_i64::<LittleEndian>`: 8 little-endian bytes of the two's-complement pattern. -/
def le64i (x : Int) : List Nat := le64 (i64ToBits x)

/-- Little-endian value of a byte list (inverse of `leBytes`, reader side). -/
def leVal : List Nat → Nat
  | [] => 0
  | b :: bs => b + 256 * leVal bs

/-- Reader-side decoding of an 8-byte little-endian two's-complement integer. -/
def decodeI64 (bs : List Nat) : Int :=
  let u := leVal bs
  if u < 2 ^ 63 then (u : Int) else (u : Int) - 2 ^ 64

/-! ## Error taxonomy (spec section 7; the Rust code surfaces these as
`assert!`/`unwrap` panics, modelled as typed errors). `Panic` stands for
a Rust panic with no name in the spec's taxonomy: the `.unwrap()` of a
failed `MmapViewSync::split_at` in the view splitter. -/

inductive Err where
  | ValidationError
  | IoError
  | NotMappedError
  | TypeMismatchError
  | Panic
  deriving DecidableEq, Repr

/-! ## Metric descriptors (src/src/lib.rs lines 30-100) -/

/-- `MetricSem` (src lines 31-35). -/
inductive MetricSem where
  | Counter
  | Instant
  | Discrete
  deriving DecidableEq, Repr

/-- The `u32` discriminant values of `MetricSem`. -/
def MetricSem.code : MetricSem → Nat
  | .Counter => 1
  | .Instant => 3
  | .Discrete => 4

/-- `MetricType` (src lines 38-41): a 64-bit signed integer or an `f64`
carried by its IEEE-754 bit pattern. -/
inductive MetricType where
  | I64 (x : Int)
  | F64 (bits : Nat)
  deriving DecidableEq, Repr

/-- The `u32` type code `write_mmv` stores for a value (src lines 203-206). -/
def MetricType.typeCode : MetricType → Nat
  | .I64 _ => 2
  | .F64 _ => 5

/-- The 8 bytes `write_mmv`/`set_val` store for a value: `write_i64` of the
integer, or `write_u64` of the float's transmuted bit pattern
(src lines 87-92 and 223-228). -/
def MetricType.valBytes : MetricType → List Nat
  | .I64 x => le64i x
  | .F64 b => le64 b

/-- The two values carry the same tag of the union. -/
def MetricType.sameTag : MetricType → MetricType → Prop
  | .I64 _, .I64 _ => True
  | .F64 _, .F64 _ => True
  | _, _ => False

instance : ∀ a b : MetricType, Decidable (a.sameTag b)
  | .I64 _, .I64 _ => isTrue trivial
  | .I64 _, .F64 _ => isFalse id
  | .F64 _, .I64 _ => isFalse id
  | .F64 _, .F64 _ => isTrue trivial

/-- Values representable by the Rust machine types: an `i64` is in
`[-2^63, 2^63)` and an `f64` bit pattern fits in 64 bits. -/
def MetricType.wf : MetricType → Prop
  | .I64 x => -(2 : Int) ^ 63 ≤ x ∧ x < 2 ^ 63
  | .F64 b => b < 2 ^ 64

instance : ∀ v : MetricType, Decidable v.wf
  | .I64 _ => inferInstanceAs (Decidable (_ ∧ _))
  | .F64 _ => inferInstanceAs (Decidable (_ < _))

/-- Reader-side decoding of a value slot, driven by the descriptor's tag. -/
def decodeVal (tag : MetricType) (bs : List Nat) : MetricType :=
  match tag with
  | .I64 _ => .I64 (decodeI64 bs)
  | .F64 _ => .F64 (leVal bs)

/-- `Metric` (src lines 43-53). Strings are carried as their UTF-8 byte
lists (`str::len` in the source is the byte length); `mmap_view` is the
absolute offset, in the mapping, of the 8-byte view handed over by
`split_mmap_views`, or `none` before mapping. -/
structure Metric where
  name : List Nat
  item : Nat
  sem : MetricSem
  indom : Nat
  dim : Nat
  shorttext : List Nat
  longtext : List Nat
  val : MetricType
  mmap_view : Option Nat
  deriving DecidableEq, Repr

/-- `Metric::new` (src lines 56-76): the three `assert!` length checks,
then construction with `mmap_view = None`. The asserts fire before any
byte of any file is touched; they are modelled as a `ValidationError`. -/
def Metric.new (name : List Nat) (item : Nat) (sem : MetricSem) (indom dim : Nat)
    (init_val : MetricType) (shorthelp longhelp : List Nat) : Except Err Metric :=
  if name.length < METRIC_NAME_MAX_LEN ∧ shorthelp.length < STRING_BLOCK_LEN ∧
      longhelp.length < STRING_BLOCK_LEN then
    .ok { name := name, item := item, sem := sem, indom := indom, dim := dim,
          shorttext := shorthelp, longtext := longhelp, val := init_val,
          mmap_view := none }
  else
    .error .ValidationError

/-- The length invariants `Metric::new` establishes. -/
def Metric.wf (m : Metric) : Prop :=
  m.name.length < METRIC_NAME_MAX_LEN ∧ m.shorttext.length < STRING_BLOCK_LEN ∧
    m.longtext.length < STRING_BLOCK_LEN

instance : DecidablePred Metric.wf := fun m => by
  unfold Metric.wf; infer_instance

/-! ## The mapping as a byte buffer -/

/-- Store `data` into the buffer at `off`: bytes inside
`[off, off + data.length)` come from `data`, all others are unchanged. -/
def store (buf : Nat → Nat) (off : Nat) (data : List Nat) : Nat → Nat :=
  fun p => if off ≤ p ∧ p < off + data.length then data.getD (p - off) 0 else buf p

/-- One cursor write of `write_mmv`: an absolute offset and the bytes written there. -/
abbrev Event := Nat × List Nat

/-- Replay a list of writes, in order, over a buffer. -/
def applyEvents (evs : List Event) (buf : Nat → Nat) : Nat → Nat :=
  evs.foldl (fun b e => store b e.1 e.2) buf

/-- Read `len` bytes starting at `off`. -/
def readBytes (buf : Nat → Nat) (off len : Nat) : List Nat :=
  (List.range len).map fun k => buf (off + k)

/-- The write `e` does not touch the byte range `[off, off + len)`. -/
def avoids (e : Event) (off len : Nat) : Prop :=
  off + len ≤ e.1 ∨ e.1 + e.2.length ≤ off

/-- The two writes touch disjoint byte ranges. -/
def evDisj (a b : Event) : Prop :=
  a.1 + a.2.length ≤ b.1 ∨ b.1 + b.2.length ≤ a.1

/-! ## Layout offsets (the Layout Calculator, src lines 128-130, 169, 178, 187) -/

/-- Start of the metric-block section: `HDR_LEN + TOC_BLOCK_LEN*3 = 88`. -/
def metricSectionOffset : Nat := HDR_LEN + TOC_BLOCK_LEN * 3

/-- Start of the value-block section. -/
def valueSectionOffset (n : Nat) : Nat := metricSectionOffset + METRIC_BLOCK_LEN * n

/-- Start of the string-block section. -/
def stringSectionOffset (n : Nat) : Nat := valueSectionOffset n + VALUE_BLOCK_LEN * n

/-- `mmv_size` as computed in `MMV::map` (src lines 128-130): the number of
zero bytes written to the file and the length of the created mapping. -/
def mmvSize (n : Nat) : Nat :=
  HDR_LEN + 3 * TOC_BLOCK_LEN +
    n * (METRIC_BLOCK_LEN + VALUE_BLOCK_LEN + 2 * STRING_BLOCK_LEN)

/-- Offset of metric block `i`. -/
def metricBlockOffset (i : Nat) : Nat := metricSectionOffset + i * METRIC_BLOCK_LEN

/-- Offset of value block `i`. -/
def valueBlockOffset (n i : Nat) : Nat := valueSectionOffset n + i * VALUE_BLOCK_LEN

/-- Offset of the first (short-help) string block of metric `i`. -/
def stringBlockOffset (n i : Nat) : Nat := stringSectionOffset n + i * 2 * STRING_BLOCK_LEN

/-! ## The encoder `MMV::write_mmv` (src lines 141-256) as an event trace

Each event is one cursor write, listed in exactly the order the source
performs them. `gen` is the wall-clock timestamp `time::now()` read once
at the start of the call, and `pid` the `getpid()` result; both are
threaded as parameters. -/

/-- The bytes of `"MMV"` followed by the nul terminator (src line 146). -/
def magicBytes : List Nat := [77, 77, 86, 0]

/-- The header and table-of-contents writes (src lines 146-188), at
consecutive cursor positions 0, 4, 8, 16, 24, 28, 32, 36, then the three
TOC blocks at 40, 56, 72. The generation-2 slot at 16 is first written as
the zero placeholder. -/
def headerEvents (gen : Int) (flags pid cluster n : Nat) : List Event :=
  [ (0, magicBytes),
    (4, le32 1),
    (8, le64i gen),
    (16, le64 0),
    (24, le32 3),
    (28, le32 flags),
    (32, le32 pid),
    (36, le32 cluster),
    (40, le32 3), (44, le32 n), (48, le64 metricSectionOffset),
    (56, le32 4), (60, le32 n), (64, le64 (valueSectionOffset n)),
    (72, le32 5), (76, le32 (2 * n)), (80, le64 (stringSectionOffset n)) ]

/-- The writes of one loop iteration of `write_mmv` (src lines 191-251) for
metric `m` at index `i`, in source order: the metric block's name and
fixed fields, the value block, then the short-help offset, short-help
text, long-help offset, and long-help text. -/
def metricEvents (n i : Nat) (m : Metric) : List Event :=
  [ (metricBlockOffset i, m.name ++ [0]),
    (metricBlockOffset i + METRIC_NAME_MAX_LEN, le32 m.item),
    (metricBlockOffset i + 68, le32 m.val.typeCode),
    (metricBlockOffset i + 72, le32 m.sem.code),
    (metricBlockOffset i + 76, le32 m.dim),
    (metricBlockOffset i + 80, le32 m.indom),
    (metricBlockOffset i + 84, le32 0),
    (valueBlockOffset n i, m.val.valBytes),
    (valueBlockOffset n i + 8, le64 0),
    (valueBlockOffset n i + 16, le64 (metricBlockOffset i)),
    (valueBlockOffset n i + 24, le64 0),
    (metricBlockOffset i + 88, le64 (stringBlockOffset n i)),
    (stringBlockOffset n i, m.shorttext ++ [0]),
    (metricBlockOffset i + 96, le64 (stringBlockOffset n i + STRING_BLOCK_LEN)),
    (stringBlockOffset n i + STRING_BLOCK_LEN, m.longtext ++ [0]) ]

/-- The writes of the metric loop, enumerating the metrics from index `k`. -/
def bodyAux (n : Nat) : Nat → List Metric → List Event
  | _, [] => []
  | k, m :: rest => metricEvents n k m ++ bodyAux n (k + 1) rest

/-- All writes of the loop over `metrics.iter().enumerate()`. -/
def bodyEvents (ms : List Metric) : List Event := bodyAux ms.length 0 ms

/-- Every write `MMV::write_mmv` performs, in source order: header and TOC,
the per-metric blocks, and finally the generation-2 unlock write at
position 16 (src lines 253-255). -/
def allEvents (gen : Int) (flags pid cluster : Nat) (ms : List Metric) : List Event :=
  headerEvents gen flags pid cluster ms.length ++ bodyEvents ms ++ [(16, le64i gen)]

/-- The byte image `write_mmv` leaves in the zero-filled mapping. -/
def mmvBuf (gen : Int) (flags pid cluster : Nat) (ms : List Metric) : Nat → Nat :=
  applyEvents (allEvents gen flags pid cluster ms) fun _ => 0

/-! ## The view splitter `MMV::split_mmap_views` (src lines 258-277)

A view is identified by its absolute start offset and its length in the
mapping. `rightStart` and `rightLen` describe the current `right`
remainder view; `leftMidLen` is the source's `left_mid_len` variable,
which the source **assigns** (not accumulates) to
`left.len() + middle.len()` each iteration. `usize` subtraction is
modelled by truncated `Nat` subtraction (the loop never underflows).
`MmapViewSync::split_at(view, offset)` fails when `offset` exceeds the
view's length, and the source calls `.unwrap()` on it — a Rust panic,
modelled as `none`: the first split requires `leftLen ≤ rightLen`, the
second (carving the 8-byte `middle` off the remainder) requires
`8 ≤ rightLen - leftLen`. -/

def splitViewsAux (vso : Nat) : Nat → Nat → Nat → Nat → List Metric →
    Option (List Metric)
  | _, _, _, _, [] => some []
  | i, rightStart, rightLen, leftMidLen, m :: rest =>
    let vbo := vso + i * VALUE_BLOCK_LEN
    let leftLen := vbo - leftMidLen
    if leftLen ≤ rightLen ∧ 8 ≤ rightLen - leftLen then
      let middleStart := rightStart + leftLen
      (splitViewsAux vso (i + 1) (middleStart + 8) (rightLen - leftLen - 8)
          (leftLen + 8) rest).map
        fun rest' => { m with mmap_view := some middleStart } :: rest'
    else none

/-- `MMV::split_mmap_views`: the whole mapping (length `mmv_size`) enters
as the initial `right` view and is sequentially split, handing each
metric an 8-byte view; `none` is the `.unwrap()` panic on a failed
split. -/
def split_mmap_views (ms : List Metric) : Option (List Metric) :=
  splitViewsAux (valueSectionOffset ms.length) 0 0 (mmvSize ms.length) 0 ms

/-! ## `MMV::map` (src lines 124-139) -/

/-- `MMV` (src lines 102-106). -/
structure MMV where
  path : String
  flags : Nat
  cluster_id : Nat

/-- `MMV::new` (src lines 116-122). -/
def MMV.new (path : String) (flags cluster_id : Nat) : MMV :=
  { path := path, flags := flags, cluster_id := cluster_id }

/-- The OS file state `map` interacts with: which paths exist and which
are writable by this process. -/
structure FileSys where
  present : String → Bool
  writable : String → Bool

/-- Rust std `OpenOptions::new().read(true).write(true).open(path)` as
called by `MMV::map` (src lines 125-126): without `.create(true)` the open
fails when the file does not exist, and it fails when the file is not
writable; no file is ever created. -/
def openRW (fs : FileSys) (path : String) : Except Err Unit :=
  if fs.present path then
    if fs.writable path then .ok () else .error .IoError
  else .error .IoError

/-- `MMV::map` (src lines 124-139): open the existing file read-write,
zero-fill `mmv_size` bytes, map the file, run `write_mmv`, and split the
mapping's views into the metrics. On the open-error path nothing is
written and no metric receives a view; a failed view split is the
`.unwrap()` panic inside `split_mmap_views` (`Err.Panic` — the encoder's
writes have happened by then, but the call never returns and no metric
receives a view). The result is the mapping size, the byte image, and
the updated metric list. -/
def MMV.map (mmv : MMV) (fs : FileSys) (gen : Int) (pid : Nat) (ms : List Metric) :
    Except Err (Nat × (Nat → Nat) × List Metric) :=
  match openRW fs mmv.path with
  | .error e => .error e
  | .ok _ =>
    match split_mmap_views ms with
    | some ms' =>
      .ok (mmvSize ms.length, mmvBuf gen mmv.flags pid mmv.cluster_id ms, ms')
    | none => .error .Panic

/-! ## The value updater `Metric::set_val` (src lines 82-99)

The source first requires the view to be present (else it panics with
"metric not yet mapped!"), then matches the stored tag against the new
value's tag (a mismatch panics with "wrong metric type!"), writes the 8
little-endian bytes through the view, and only then assigns
`self.val = new_val`. On either failure the mapping bytes and the
in-memory value are untouched, which the `Except` error result models. -/
def Metric.set_val (m : Metric) (buf : Nat → Nat) (new_val : MetricType) :
    Except Err (Metric × (Nat → Nat)) :=
  match m.mmap_view with
  | some off =>
    match m.val, new_val with
    | .I64 _, .I64 x => .ok ({ m with val := .I64 x }, store buf off (le64i x))
    | .F64 _, .F64 b => .ok ({ m with val := .F64 b }, store buf off (le64 b))
    | .I64 _, .F64 _ => .error .TypeMismatchError
    | .F64 _, .I64 _ => .error .TypeMismatchError
  | none => .error .NotMappedError

/-! ## The scenario descriptors (spec section 8; examples/monte_pi.rs) -/

/-- "trials": integer counter, initial value 0. -/
def trialsMetric : Metric :=
  { name := [116, 114, 105, 97, 108, 115], item := 1, sem := .Counter, indom := 0,
    dim := 0, shorttext := [84, 114, 105, 97, 108, 115],
    longtext := [78, 117, 109, 98, 101, 114, 32, 111, 102, 32, 77, 111, 110, 116,
      101, 32, 67, 97, 114, 108, 111, 32, 116, 114, 105, 97, 108, 115],
    val := .I64 0, mmap_view := none }

/-- "pi": float instant metric, initial value 0.0 (bit pattern 0). -/
def piMetric : Metric :=
  { name := [112, 105], item := 1, sem := .Instant, indom := 0, dim := 0,
    shorttext := [69, 115, 116, 105, 109, 97, 116, 101, 100, 32, 80, 105],
    longtext := [69, 115, 116, 105, 109, 97, 116, 101, 100, 32, 118, 97, 108, 117,
      101, 32, 111, 102, 32, 80, 105, 32, 116, 104, 114, 111, 117, 103, 104, 32,
      77, 111, 110, 116, 101, 32, 67, 97, 114, 108, 111, 32, 116, 114, 105, 97,
      108, 115],
    val := .F64 0, mmap_view := none }

/-- A third descriptor ("x"), used to exercise the splitter beyond the
two-descriptor scenario. -/
def thirdMetric : Metric :=
  { name := [120], item := 2, sem := .Discrete, indom := 0, dim := 0,
    shorttext := [], longtext := [], val := .I64 0, mmap_view := none }

/-- The IEEE-754 bit pattern of the double 3.14 (0x40091EB851EB851F). -/
def piBits : Nat := 4614253070214989087

/-- The two scenario descriptors after `map`: views at the two-descriptor
value slots 296 and 328. -/
def mappedScenario : List Metric :=
  [{ trialsMetric with mmap_view := some 296 },
    { piMetric with mmap_view := some 328 }]

/-- A file system on which every path is present and writable. -/
def fsAll : FileSys := { present := fun _ => true, writable := fun _ => true }

/-- A file system with no files at all. -/
def fsNone : FileSys := { present := fun _ => false, writable := fun _ => true }

/-- All descriptor fields other than the view handle agree. -/
def sameDescriptor (a b : Metric) : Prop :=
  a.name = b.name ∧ a.item = b.item ∧ a.sem = b.sem ∧ a.indom = b.indom ∧
    a.dim = b.dim ∧ a.shorttext = b.shorttext ∧ a.longtext = b.longtext ∧
    a.val = b.val

/-- The write `e` lies entirely inside metric `i`'s metric block, value
block, or pair of string blocks. -/
def inMetricRegions (n i : Nat) (e : Event) : Prop :=
  (metricBlockOffset i ≤ e.1 ∧
      e.1 + e.2.length ≤ metricBlockOffset i + METRIC_BLOCK_LEN) ∨
    (valueBlockOffset n i ≤ e.1 ∧
      e.1 + e.2.length ≤ valueBlockOffset n i + VALUE_BLOCK_LEN) ∨
    (stringBlockOffset n i ≤ e.1 ∧
      e.1 + e.2.length ≤ stringBlockOffset n i + 2 * STRING_BLOCK_LEN)

/-! # Theorems -/

/-! ## Lengths of the encodings -/

@[simp] theorem leBytes_length (w v : Nat) : (leBytes w v).length = w := by
  induction w generalizing v with
  | zero => rfl
  | succ w ih => simp [leBytes, ih]

@[simp] theorem le32_length (v : Nat) : (le32 v).length = 4 := by
  simp [le32]

@[simp] theorem le64_length (v : Nat) : (le64 v).length = 8 := by
  simp [le64]

@[simp] theorem le64i_length (x : Int) : (le64i x).length = 8 := by
  simp [le64i]

@[simp] theorem valBytes_length (v : MetricType) : v.valBytes.length = 8 := by
  cases v <;> simp [MetricType.valBytes]

theorem leVal_leBytes (w v : Nat) : leVal (leBytes w v) = v % 256 ^ w := by
  induction w generalizing v with
  | zero => simp [leBytes, leVal, Nat.mod_one]
  | succ w ih =>
    have hdiv : v / 256 % 256 ^ w = v % (256 * 256 ^ w) / 256 :=
      (Nat.mod_mul_right_div_self v 256 (256 ^ w)).symm
    have hmod : v % (256 * 256 ^ w) % 256 = v % 256 := by
      rw [Nat.mod_mod_of_dvd _ ⟨256 ^ w, rfl⟩]
    have hsplit : 256 * (v % (256 * 256 ^ w) / 256) + v % (256 * 256 ^ w) % 256
        = v % (256 * 256 ^ w) := Nat.div_add_mod _ 256
    simp only [leBytes, leVal, ih]
    rw [hdiv, pow_succ, mul_comm (256 ^ w) 256]
    omega

/-! ## Buffer and event lemmas -/

theorem store_of_notMem {o : Nat} {d : List Nat} (buf : Nat → Nat) {p : Nat}
    (h : p < o ∨ o + d.length ≤ p) : store buf o d p = buf p := by
  unfold store
  rw [if_neg]
  omega

theorem store_get {o k : Nat} {d : List Nat} (buf : Nat → Nat) (h : k < d.length) :
    store buf o d (o + k) = d.getD k 0 := by
  unfold store
  rw [if_pos (by omega)]
  congr 1
  omega

@[simp] theorem applyEvents_nil (buf : Nat → Nat) : applyEvents [] buf = buf := rfl

theorem applyEvents_cons (e : Event) (evs : List Event) (buf : Nat → Nat) :
    applyEvents (e :: evs) buf = applyEvents evs (store buf e.1 e.2) := rfl

theorem applyEvents_append (a b : List Event) (buf : Nat → Nat) :
    applyEvents (a ++ b) buf = applyEvents b (applyEvents a buf) :=
  List.foldl_append _ _ a b

theorem applyEvents_notMem {evs : List Event} (buf : Nat → Nat) {p : Nat}
    (h : ∀ e ∈ evs, p < e.1 ∨ e.1 + e.2.length ≤ p) :
    applyEvents evs buf p = buf p := by
  induction evs generalizing buf with
  | nil => rfl
  | cons e rest ih =>
    have h1 := h e (List.mem_cons_self e rest)
    have h2 : ∀ e' ∈ rest, p < e'.1 ∨ e'.1 + e'.2.length ≤ p :=
      fun e' he' => h e' (List.mem_cons_of_mem e he')
    rw [applyEvents_cons, ih _ h2, store_of_notMem buf h1]

theorem readBytes_congr {buf1 buf2 : Nat → Nat} {off len : Nat}
    (h : ∀ p, off ≤ p → p < off + len → buf1 p = buf2 p) :
    readBytes buf1 off len = readBytes buf2 off len := by
  unfold readBytes
  refine List.map_congr_left fun k hk => ?_
  rw [List.mem_range] at hk
  exact h (off + k) (by omega) (by omega)

theorem readBytes_avoids {evs : List Event} (buf : Nat → Nat) {off len : Nat}
    (h : ∀ e ∈ evs, avoids e off len) :
    readBytes (applyEvents evs buf) off len = readBytes buf off len := by
  refine readBytes_congr fun p hp hp' => ?_
  refine applyEvents_notMem buf fun e he => ?_
  rcases h e he with h1 | h1
  · exact Or.inl (by omega)
  · exact Or.inr (by omega)

theorem readBytes_store (buf : Nat → Nat) (o : Nat) (d : List Nat) :
    readBytes (store buf o d) o d.length = d := by
  refine List.ext_get (by simp [readBytes]) fun k h1 h2 => ?_
  simp only [readBytes, List.get_eq_getElem, List.getElem_map, List.getElem_range]
  rw [store_get buf (by simpa [readBytes] using h1)]
  exact List.getD_eq_getElem d 0 _

theorem readBytes_store_pad (buf : Nat → Nat) (o len : Nat) (d : List Nat)
    (hlen : d.length ≤ len) (hbuf : ∀ p, o + d.length ≤ p → p < o + len → buf p = 0) :
    readBytes (store buf o d) o len = d ++ List.replicate (len - d.length) 0 := by
  refine List.ext_get (by simp [readBytes]; omega) fun k h1 h2 => ?_
  simp only [readBytes, List.get_eq_getElem, List.getElem_map, List.getElem_range]
  have hk : k < len := by simpa [readBytes] using h1
  by_cases hkd : k < d.length
  · rw [store_get buf hkd, List.getElem_append_left hkd, List.getD_eq_getElem d 0 hkd]
  · rw [store_of_notMem buf (Or.inr (by omega)), hbuf (o + k) (by omega) (by omega),
      List.getElem_append_right (by omega)]
    simp

/-- Reading exactly the bytes of a write none of the later writes touches. -/
theorem read_event (A B : List Event) (buf : Nat → Nat) (o : Nat) (d : List Nat)
    (hB : ∀ e ∈ B, avoids e o d.length) :
    readBytes (applyEvents (A ++ (o, d) :: B) buf) o d.length = d := by
  rw [applyEvents_append, applyEvents_cons, readBytes_avoids _ hB, readBytes_store]

/-- Reading a range holding one write plus its untouched zero padding. -/
theorem read_event_pad (A B : List Event) (o len : Nat) (d : List Nat)
    (hlen : d.length ≤ len)
    (hA : ∀ e ∈ A, avoids e o len) (hB : ∀ e ∈ B, avoids e o len) :
    readBytes (applyEvents (A ++ (o, d) :: B) (fun _ => 0)) o len
      = d ++ List.replicate (len - d.length) 0 := by
  rw [applyEvents_append, applyEvents_cons, readBytes_avoids _ hB]
  refine readBytes_store_pad _ o len d hlen fun p hp hp' => ?_
  refine applyEvents_notMem _ fun e he => ?_
  rcases hA e he with h1 | h1
  · exact Or.inl (by omega)
  · exact Or.inr (by omega)

/-- In a list of pairwise-disjoint writes, every write's bytes survive into
the final buffer. -/
theorem read_disjoint {evs : List Event} (buf : Nat → Nat)
    (hd : List.Pairwise evDisj evs) {o : Nat} {d : List Nat} (h : (o, d) ∈ evs) :
    readBytes (applyEvents evs buf) o d.length = d := by
  induction evs generalizing buf with
  | nil => cases h
  | cons e rest ih =>
    rcases List.mem_cons.mp h with h1 | h1
    · subst h1
      rw [applyEvents_cons,
        readBytes_avoids _ (fun e' he' => (List.pairwise_cons.mp hd).1 e' he'),
        readBytes_store]
    · exact ih _ (List.pairwise_cons.mp hd).2 h1

/-! ## Round trips of the value encodings -/

theorem i64ToBits_lt (x : Int) : i64ToBits x < 2 ^ 64 := by
  unfold i64ToBits
  have h2 : (0 : Int) < 2 ^ 64 := by norm_num
  have := Int.emod_lt_of_pos x h2
  have := Int.emod_nonneg x (by norm_num : (2 : Int) ^ 64 ≠ 0)
  omega

theorem leVal_le64 {b : Nat} (h : b < 2 ^ 64) : leVal (le64 b) = b := by
  rw [le64, leVal_leBytes, Nat.mod_eq_of_lt]
  norm_num
  omega

theorem decodeI64_le64i {x : Int} (h1 : -(2 : Int) ^ 63 ≤ x) (h2 : x < 2 ^ 63) :
    decodeI64 (le64i x) = x := by
  have hb := i64ToBits_lt x
  unfold decodeI64 le64i
  rw [leVal_le64 hb]
  have hx : (i64ToBits x : Int) = x % 2 ^ 64 := by
    unfold i64ToBits
    exact Int.toNat_of_nonneg (Int.emod_nonneg x (by norm_num))
  have e64 : (2 : Int) ^ 64 = 18446744073709551616 := by norm_num
  have e63i : (2 : Int) ^ 63 = 9223372036854775808 := by norm_num
  have e63n : (2 : Nat) ^ 63 = 9223372036854775808 := by norm_num
  show (if i64ToBits x < 2 ^ 63 then ((i64ToBits x : Nat) : Int)
    else ((i64ToBits x : Nat) : Int) - 2 ^ 64) = x
  rw [e64] at hx
  rw [e63i] at h1 h2
  by_cases hc : i64ToBits x < 2 ^ 63
  · rw [if_pos hc, e63n] at *
    omega
  · rw [if_neg hc, e64]
    rw [e63n] at hc
    omega

/-- Decoding a freshly written slot recovers the value. -/
theorem decodeVal_valBytes {v : MetricType} (hwf : v.wf) :
    decodeVal v v.valBytes = v := by
  cases v with
  | I64 x =>
    simp only [MetricType.valBytes, decodeVal]
    rw [decodeI64_le64i hwf.1 hwf.2]
  | F64 b =>
    simp only [MetricType.valBytes, decodeVal]
    rw [leVal_le64 hwf]

/-! ## Properties of the view splitter -/

theorem splitViewsAux_length (vso : Nat) (ms : List Metric) :
    ∀ i rs rl lml ms', splitViewsAux vso i rs rl lml ms = some ms' →
      ms'.length = ms.length := by
  induction ms with
  | nil =>
    intro i rs rl lml ms' h
    cases h
    rfl
  | cons m rest ih =>
    intro i rs rl lml ms' h
    simp only [splitViewsAux] at h
    split at h
    · rw [Option.map_eq_some'] at h
      obtain ⟨tail, htail, hf⟩ := h
      subst hf
      simp [ih _ _ _ _ _ htail]
    · cases h

theorem split_mmap_views_length (ms ms' : List Metric)
    (h : split_mmap_views ms = some ms') : ms'.length = ms.length :=
  splitViewsAux_length _ ms _ _ _ _ _ h

theorem splitViewsAux_get (vso : Nat) (ms : List Metric) :
    ∀ i rs rl lml ms', splitViewsAux vso i rs rl lml ms = some ms' →
      ∀ k (hk : k < ms.length) (hk' : k < ms'.length),
        ∃ o, ms'.get ⟨k, hk'⟩ = { ms.get ⟨k, hk⟩ with mmap_view := some o } := by
  induction ms with
  | nil =>
    intro i rs rl lml ms' h k hk
    exact absurd hk (by simp)
  | cons m rest ih =>
    intro i rs rl lml ms' h k hk hk'
    simp only [splitViewsAux] at h
    split at h
    · rw [Option.map_eq_some'] at h
      obtain ⟨tail, htail, hf⟩ := h
      subst hf
      cases k with
      | zero => exact ⟨_, rfl⟩
      | succ k =>
        simp only [List.get_cons_succ]
        exact ih _ _ _ _ _ htail k (by simpa using hk) (by simpa using hk')
    · cases h

theorem split_mmap_views_get (ms ms' : List Metric)
    (h : split_mmap_views ms = some ms') (k : Nat) (hk : k < ms.length)
    (hk' : k < ms'.length) :
    ∃ o, ms'.get ⟨k, hk'⟩ = { ms.get ⟨k, hk⟩ with mmap_view := some o } :=
  splitViewsAux_get _ ms _ _ _ _ _ h k hk hk'

/-- With eleven descriptors the splitter's `.unwrap()` panics: the
mis-tracked `left_mid_len` makes the eleventh iteration's split offset
(1392) exceed the remaining view's length (216), so even on a present,
writable file `map` aborts instead of returning. -/
theorem split_panics_for_eleven_metrics :
    split_mmap_views (List.replicate 11 thirdMetric) = none := by decide

/-! ## Bounds of the encoder's writes -/

theorem headerEvents_ub (gen : Int) (flags pid cluster n : Nat) :
    ∀ e ∈ headerEvents gen flags pid cluster n, e.1 + e.2.length ≤ 88 := by
  intro e he
  simp only [headerEvents, List.mem_cons, List.not_mem_nil, or_false] at he
  rcases he with rfl | rfl | rfl | rfl | rfl | rfl | rfl | rfl | rfl | rfl | rfl |
    rfl | rfl | rfl | rfl | rfl | rfl <;>
    simp [magicBytes]

theorem headerEvents_pairwise (gen : Int) (flags pid cluster n : Nat) :
    List.Pairwise evDisj (headerEvents gen flags pid cluster n) := by
  simp only [headerEvents, List.pairwise_cons, List.mem_cons, List.not_mem_nil,
    or_false, forall_eq_or_imp, forall_eq, List.Pairwise.nil, and_true]
  simp [evDisj, magicBytes]

theorem metricEvents_lb {n i : Nat} {m : Metric} {e : Event}
    (he : e ∈ metricEvents n i m) : 88 ≤ e.1 := by
  simp only [metricEvents, List.mem_cons, List.not_mem_nil, or_false] at he
  rcases he with rfl | rfl | rfl | rfl | rfl | rfl | rfl | rfl | rfl | rfl | rfl |
    rfl | rfl | rfl | rfl <;>
    simp [metricBlockOffset, valueBlockOffset, stringBlockOffset,
      metricSectionOffset, valueSectionOffset, stringSectionOffset,
      HDR_LEN, TOC_BLOCK_LEN, METRIC_BLOCK_LEN, VALUE_BLOCK_LEN,
      STRING_BLOCK_LEN, METRIC_NAME_MAX_LEN] <;> omega

theorem metricEvents_bounds {n i : Nat} {m : Metric} (hm : m.wf)
    {e : Event} (he : e ∈ metricEvents n i m) : inMetricRegions n i e := by
  obtain ⟨h1, h2, h3⟩ := hm
  unfold METRIC_NAME_MAX_LEN at h1
  unfold STRING_BLOCK_LEN at h2 h3
  simp only [metricEvents, List.mem_cons, List.not_mem_nil, or_false] at he
  rcases he with rfl | rfl | rfl | rfl | rfl | rfl | rfl | rfl | rfl | rfl | rfl |
    rfl | rfl | rfl | rfl <;>
    simp [inMetricRegions, metricBlockOffset, valueBlockOffset, stringBlockOffset,
      metricSectionOffset, valueSectionOffset, stringSectionOffset,
      HDR_LEN, TOC_BLOCK_LEN, METRIC_BLOCK_LEN, VALUE_BLOCK_LEN,
      STRING_BLOCK_LEN, METRIC_NAME_MAX_LEN] <;> omega

theorem regions_disjoint_avoid {n i j : Nat} (hi : i < n) (hj : j < n)
    (hij : i ≠ j) {e : Event} (hr : inMetricRegions n j e) {o l : Nat}
    (ht : (metricBlockOffset i ≤ o ∧ o + l ≤ metricBlockOffset i + METRIC_BLOCK_LEN) ∨
      (valueBlockOffset n i ≤ o ∧ o + l ≤ valueBlockOffset n i + VALUE_BLOCK_LEN) ∨
      (stringBlockOffset n i ≤ o ∧ o + l ≤ stringBlockOffset n i + 2 * STRING_BLOCK_LEN)) :
    avoids e o l := by
  simp only [inMetricRegions, avoids, metricBlockOffset, valueBlockOffset,
    stringBlockOffset, metricSectionOffset, valueSectionOffset,
    stringSectionOffset, HDR_LEN, TOC_BLOCK_LEN, METRIC_BLOCK_LEN,
    VALUE_BLOCK_LEN, STRING_BLOCK_LEN] at hr ht ⊢
  omega

theorem metricEvents_pairwise {n i : Nat} {m : Metric} (hm : m.wf) (hi : i < n) :
    List.Pairwise evDisj (metricEvents n i m) := by
  obtain ⟨h1, h2, h3⟩ := hm
  unfold METRIC_NAME_MAX_LEN at h1
  unfold STRING_BLOCK_LEN at h2 h3
  simp only [metricEvents, List.pairwise_cons, List.mem_cons, List.not_mem_nil,
    or_false, forall_eq_or_imp, forall_eq, List.Pairwise.nil, and_true]
  simp only [evDisj, metricBlockOffset, valueBlockOffset, stringBlockOffset,
    metricSectionOffset, valueSectionOffset, stringSectionOffset,
    HDR_LEN, TOC_BLOCK_LEN, METRIC_BLOCK_LEN, VALUE_BLOCK_LEN,
    STRING_BLOCK_LEN, METRIC_NAME_MAX_LEN, List.length_append,
    le32_length, le64_length, le64i_length, valBytes_length,
    List.length_cons, List.length_nil]
  and_intros <;> first
    | omega
    | exact fun a' h => h.elim

/-! ## Decomposition of the body events -/

theorem bodyAux_cons (n k : Nat) (m : Metric) (rest : List Metric) :
    bodyAux n k (m :: rest) = metricEvents n k m ++ bodyAux n (k + 1) rest := rfl

theorem bodyAux_mem {n : Nat} (ms : List Metric) :
    ∀ (k : Nat) (e : Event), e ∈ bodyAux n k ms →
      ∃ j m, k ≤ j ∧ j < k + ms.length ∧ m ∈ ms ∧ e ∈ metricEvents n j m := by
  induction ms with
  | nil => intro k e he; cases he
  | cons m rest ih =>
    intro k e he
    rw [bodyAux_cons] at he
    rcases List.mem_append.mp he with h | h
    · exact ⟨k, m, le_refl k, by simp, List.mem_cons_self m rest, h⟩
    · obtain ⟨j, m', hj1, hj2, hm', hev⟩ := ih (k + 1) e h
      refine ⟨j, m', by omega, by simp; omega, List.mem_cons_of_mem m hm', hev⟩

theorem bodyAux_eq_append {n : Nat} :
    ∀ (i : Nat) (ms : List Metric) (k : Nat) (hi : i < ms.length),
      bodyAux n k ms = bodyAux n k (ms.take i)
        ++ metricEvents n (k + i) (ms.get ⟨i, hi⟩)
        ++ bodyAux n (k + i + 1) (ms.drop (i + 1)) := by
  intro i
  induction i with
  | zero =>
    intro ms k hi
    cases ms with
    | nil => simp at hi
    | cons m rest => simp [bodyAux_cons, bodyAux]
  | succ i ih =>
    intro ms k hi
    cases ms with
    | nil => simp at hi
    | cons m rest =>
      have hi' : i < rest.length := by simpa using hi
      rw [bodyAux_cons, ih rest (k + 1) hi']
      simp only [List.take_succ_cons, List.drop_succ_cons, bodyAux_cons,
        List.get_cons_succ, List.append_assoc]
      have e1 : k + 1 + i = k + (i + 1) := by omega
      rw [e1]

/-! ## Reading the final image -/

/-- Reading the bytes of any header or TOC write out of the final image:
every such write survives the rest of the header (pairwise disjoint), the
body (which only writes at offsets ≥ 88) and the generation-2 unlock
(bytes [16, 24)). -/
theorem read_header_event (gen : Int) (flags pid cluster : Nat)
    (ms : List Metric) (o len : Nat) (d : List Nat) (hlen : d.length = len)
    (hmem : (o, d) ∈ headerEvents gen flags pid cluster ms.length)
    (hlo : o + len ≤ 88) (hg2 : o + len ≤ 16 ∨ 24 ≤ o) :
    readBytes (mmvBuf gen flags pid cluster ms) o len = d := by
  rw [← hlen]
  rw [← hlen] at hlo hg2
  unfold mmvBuf allEvents
  rw [List.append_assoc, applyEvents_append, readBytes_avoids]
  · exact read_disjoint _ (headerEvents_pairwise gen flags pid cluster ms.length) hmem
  · intro e he
    rcases List.mem_append.mp he with h | h
    · obtain ⟨j, m', _, _, _, hev⟩ := bodyAux_mem ms 0 e h
      exact Or.inl (le_trans hlo (metricEvents_lb hev))
    · rcases List.mem_singleton.mp h with rfl
      unfold avoids
      simp only [le64i_length]
      omega

/-- Reading the generation-2 field of the final image: it is the very
last write. -/
theorem read_gen2 (gen : Int) (flags pid cluster : Nat) (ms : List Metric) :
    readBytes (mmvBuf gen flags pid cluster ms) 16 8 = le64i gen := by
  have h8 : (8 : Nat) = (le64i gen).length := by simp
  rw [h8]
  unfold mmvBuf allEvents
  rw [List.append_assoc]
  exact read_event _ [] _ 16 (le64i gen) (by simp)

theorem bodyAux_other_avoids {ms : List Metric} (hwf : ∀ m ∈ ms, m.wf)
    {i : Nat} (hi : i < ms.length) {o l : Nat}
    (ht : (metricBlockOffset i ≤ o ∧ o + l ≤ metricBlockOffset i + METRIC_BLOCK_LEN) ∨
      (valueBlockOffset ms.length i ≤ o ∧
        o + l ≤ valueBlockOffset ms.length i + VALUE_BLOCK_LEN) ∨
      (stringBlockOffset ms.length i ≤ o ∧
        o + l ≤ stringBlockOffset ms.length i + 2 * STRING_BLOCK_LEN))
    {k : Nat} {sub : List Metric} (hsub : ∀ m ∈ sub, m ∈ ms)
    (hrange : ∀ j, k ≤ j → j < k + sub.length → j < ms.length ∧ j ≠ i) :
    ∀ e ∈ bodyAux ms.length k sub, avoids e o l := by
  intro e he
  obtain ⟨j, m', hj1, hj2, hm', hev⟩ := bodyAux_mem sub k e he
  obtain ⟨hjn, hji⟩ := hrange j hj1 hj2
  exact regions_disjoint_avoid hi hjn (Ne.symm hji)
    (metricEvents_bounds (hwf m' (hsub m' hm')) hev) ht

theorem target_ge_24 {n i o l : Nat}
    (ht : (metricBlockOffset i ≤ o ∧ o + l ≤ metricBlockOffset i + METRIC_BLOCK_LEN) ∨
      (valueBlockOffset n i ≤ o ∧ o + l ≤ valueBlockOffset n i + VALUE_BLOCK_LEN) ∨
      (stringBlockOffset n i ≤ o ∧ o + l ≤ stringBlockOffset n i + 2 * STRING_BLOCK_LEN)) :
    24 ≤ o := by
  simp only [metricBlockOffset, valueBlockOffset, stringBlockOffset,
    metricSectionOffset, valueSectionOffset, stringSectionOffset, HDR_LEN,
    TOC_BLOCK_LEN, METRIC_BLOCK_LEN, VALUE_BLOCK_LEN, STRING_BLOCK_LEN] at ht
  omega

/-- Reading the bytes of any write of metric `i`'s loop iteration out of
the final image. -/
theorem read_metric_event (gen : Int) (flags pid cluster : Nat)
    (ms : List Metric) (hwf : ∀ m ∈ ms, m.wf) (i : Nat) (hi : i < ms.length)
    (o len : Nat) (d : List Nat) (hlen : d.length = len)
    (hmem : (o, d) ∈ metricEvents ms.length i (ms.get ⟨i, hi⟩)) :
    readBytes (mmvBuf gen flags pid cluster ms) o len = d := by
  rw [← hlen]
  have hm : (ms.get ⟨i, hi⟩).wf := hwf _ (List.get_mem ms i hi)
  have ht' := metricEvents_bounds (n := ms.length) hm hmem
  have ht : (metricBlockOffset i ≤ o ∧
        o + d.length ≤ metricBlockOffset i + METRIC_BLOCK_LEN) ∨
      (valueBlockOffset ms.length i ≤ o ∧
        o + d.length ≤ valueBlockOffset ms.length i + VALUE_BLOCK_LEN) ∨
      (stringBlockOffset ms.length i ≤ o ∧
        o + d.length ≤ stringBlockOffset ms.length i + 2 * STRING_BLOCK_LEN) := ht'
  unfold mmvBuf allEvents bodyEvents
  rw [bodyAux_eq_append i ms 0 hi]
  simp only [Nat.zero_add]
  rw [List.append_assoc, applyEvents_append, applyEvents_append,
    List.append_assoc, applyEvents_append, applyEvents_append]
  rw [readBytes_avoids]
  · rw [readBytes_avoids]
    · exact read_disjoint _ (metricEvents_pairwise hm hi) hmem
    · refine bodyAux_other_avoids hwf hi ht (fun m' hm' => List.drop_subset _ ms hm') ?_
      intro j hj1 hj2
      rw [List.length_drop] at hj2
      omega
  · intro e he
    rcases List.mem_singleton.mp he with rfl
    right
    simp only [le64i_length]
    have h24 := target_ge_24 ht
    omega

/-- Reading metric `i`'s 64-byte name field out of the final image: the
nul-terminated name followed by the zero fill left from the fresh
mapping. -/
theorem read_metric_name (gen : Int) (flags pid cluster : Nat)
    (ms : List Metric) (hwf : ∀ m ∈ ms, m.wf) (i : Nat) (hi : i < ms.length) :
    readBytes (mmvBuf gen flags pid cluster ms) (metricBlockOffset i) 64
      = ((ms.get ⟨i, hi⟩).name ++ [0])
        ++ List.replicate (64 - ((ms.get ⟨i, hi⟩).name.length + 1)) 0 := by
  have hm : (ms.get ⟨i, hi⟩).wf := hwf _ (List.get_mem ms i hi)
  have hname : (ms.get ⟨i, hi⟩).name.length < 64 := hm.1
  have ht : (metricBlockOffset i ≤ metricBlockOffset i ∧
      metricBlockOffset i + 64 ≤ metricBlockOffset i + METRIC_BLOCK_LEN) ∨
      (valueBlockOffset ms.length i ≤ metricBlockOffset i ∧
        metricBlockOffset i + 64 ≤ valueBlockOffset ms.length i + VALUE_BLOCK_LEN) ∨
      (stringBlockOffset ms.length i ≤ metricBlockOffset i ∧
        metricBlockOffset i + 64 ≤ stringBlockOffset ms.length i + 2 * STRING_BLOCK_LEN) :=
    Or.inl ⟨le_refl _, by unfold METRIC_BLOCK_LEN; omega⟩
  unfold mmvBuf allEvents bodyEvents
  rw [bodyAux_eq_append i ms 0 hi]
  simp only [Nat.zero_add]
  rw [List.append_assoc, applyEvents_append, applyEvents_append,
    List.append_assoc, applyEvents_append, applyEvents_append]
  rw [readBytes_avoids]
  · rw [readBytes_avoids]
    · show readBytes
        (applyEvents (metricEvents ms.length i (ms.get ⟨i, hi⟩))
          (applyEvents (bodyAux ms.length 0 (List.take i ms))
            (applyEvents (headerEvents gen flags pid cluster ms.length) fun _ => 0)))
        (metricBlockOffset i) 64 = _
      rw [show metricEvents ms.length i (ms.get ⟨i, hi⟩)
          = (metricBlockOffset i, (ms.get ⟨i, hi⟩).name ++ [0])
            :: (metricEvents ms.length i (ms.get ⟨i, hi⟩)).tail from rfl,
        applyEvents_cons]
      rw [readBytes_avoids]
      · have hpad : readBytes
            (store (applyEvents (bodyAux ms.length 0 (List.take i ms))
              (applyEvents (headerEvents gen flags pid cluster ms.length) fun _ => 0))
              (metricBlockOffset i) ((ms.get ⟨i, hi⟩).name ++ [0]))
            (metricBlockOffset i) 64
            = ((ms.get ⟨i, hi⟩).name ++ [0])
              ++ List.replicate (64 - ((ms.get ⟨i, hi⟩).name ++ [0]).length) 0 := by
          refine readBytes_store_pad _ _ _ _
            (by rw [List.length_append, List.length_singleton]; omega) ?_
          intro p hp hp'
          rw [applyEvents_notMem, applyEvents_notMem]
          · intro e he
            have hub := headerEvents_ub gen flags pid cluster ms.length e he
            have hlb : 88 ≤ metricBlockOffset i := by
              simp [metricBlockOffset, metricSectionOffset, HDR_LEN, TOC_BLOCK_LEN]
            omega
          · intro e he
            have hav := bodyAux_other_avoids hwf hi
              (o := p) (l := 1)
              (Or.inl ⟨le_trans (Nat.le_add_right _ _) hp, by
                unfold METRIC_BLOCK_LEN
                omega⟩)
              (fun m' hm' => List.take_subset i ms hm')
              (fun j hj1 hj2 => by
                rw [List.length_take] at hj2
                omega) e he
            unfold avoids at hav
            omega
        rw [hpad]
        simp
      · intro e he
        simp only [metricEvents, List.tail_cons, List.mem_cons,
          List.not_mem_nil, or_false] at he
        rcases he with rfl | rfl | rfl | rfl | rfl | rfl | rfl | rfl | rfl | rfl |
          rfl | rfl | rfl | rfl <;>
          simp [avoids, metricBlockOffset, valueBlockOffset, stringBlockOffset,
            metricSectionOffset, valueSectionOffset, stringSectionOffset, HDR_LEN,
            TOC_BLOCK_LEN, METRIC_BLOCK_LEN, VALUE_BLOCK_LEN, STRING_BLOCK_LEN,
            METRIC_NAME_MAX_LEN] <;> omega
    · refine bodyAux_other_avoids hwf hi ht (fun m' hm' => List.drop_subset _ ms hm') ?_
      intro j hj1 hj2
      rw [List.length_drop] at hj2
      omega
  · intro e he
    rcases List.mem_singleton.mp he with rfl
    right
    simp only [le64i_length]
    have h24 := target_ge_24 ht
    omega

/-! ## Claim theorems -/

/-- C1 (refuted by the code, which contradicts the spec's intent): on a
three-descriptor list every `split_at` stays in bounds (no panic: the
result is `some`), and the splitter hands descriptor 2 the 8-byte view at
absolute offset 872, not its value-slot range starting at
`valueBlockOffset 3 2 = 88 + 104*3 + 32*2 = 464`. The source reassigns
`left_mid_len = left.len() + middle.len()` (src line 273) instead of
accumulating all bytes consumed so far, so from the third iteration on
the split point is measured from the wrong origin (offset 872 lies inside
metric 0's long-help string block). Descriptors 0 and 1 still receive the
correct slots. -/
theorem split_hands_out_wrong_slot_for_three_metrics :
    (split_mmap_views [trialsMetric, piMetric, thirdMetric]).map
        (fun ms' => ms'.map fun m => m.mmap_view)
      = some [some 400, some 432, some 872] ∧
      valueBlockOffset 3 0 = 400 ∧ valueBlockOffset 3 1 = 432 ∧
      valueBlockOffset 3 2 = 464 ∧ (872 : Nat) ≠ 464 := by
  exact ⟨by decide, rfl, rfl, rfl, by decide⟩

/-- C3: the size `MMV::map` computes, zero-fills and maps equals the
layout formula `40 + 3*16 + N*(104 + 32 + 2*256)` for every metric count,
equals 1384 for the two-descriptor scenario, and is the size any
successful `map` call reports. -/
theorem mmv_size_formula :
    (∀ n : Nat, mmvSize n = 40 + 3 * 16 + n * (104 + 32 + 2 * 256)) ∧
      mmvSize 2 = 1384 ∧
      ∀ (mmv : MMV) (fs : FileSys) (gen : Int) (pid : Nat) (ms : List Metric)
        (sz : Nat) (buf : Nat → Nat) (ms' : List Metric),
        mmv.map fs gen pid ms = .ok (sz, buf, ms') →
          sz = 40 + 3 * 16 + ms.length * (104 + 32 + 2 * 256) := by
  refine ⟨fun n => rfl, rfl, ?_⟩
  intro mmv fs gen pid ms sz buf ms' hok
  unfold MMV.map at hok
  cases h : openRW fs mmv.path with
  | error e => rw [h] at hok; cases hok
  | ok u =>
    rw [h] at hok
    cases hs : split_mmap_views ms with
    | none => rw [hs] at hok; cases hok
    | some ms'' =>
      rw [hs] at hok
      cases hok
      rfl

/-- Witness for the hypothesis of `mmv_size_formula`: a concrete
successful `map` call on the two scenario descriptors reports size 1384. -/
theorem mmv_size_formula_witness :
    (MMV.new "metrics.mmv" 0 0).map fsAll 0 0 [trialsMetric, piMetric] =
        .ok (mmvSize 2, mmvBuf 0 0 0 0 [trialsMetric, piMetric],
          mappedScenario) ∧
      mmvSize 2 = 40 + 3 * 16 + 2 * (104 + 32 + 2 * 256) :=
  ⟨rfl, mmv_size_formula.2.2 (MMV.new "metrics.mmv" 0 0) fsAll 0 0
    [trialsMetric, piMetric] _ _ _ rfl⟩

/-- C5: on a mapped descriptor, an update with a matching tag succeeds,
overwrites the descriptor's 8-byte slot with the value's little-endian
integer encoding (integer tag) or IEEE-754 little-endian bit encoding
(float tag), sets the in-memory value field to the new value, and
re-reading the slot decodes back to exactly the written value. -/
theorem set_val_writes_encoding (m : Metric) (buf : Nat → Nat) (v : MetricType)
    (off : Nat) (hview : m.mmap_view = some off) (htag : m.val.sameTag v)
    (hwf : v.wf) :
    ∃ m' buf', m.set_val buf v = .ok (m', buf') ∧ m'.val = v ∧
      readBytes buf' off 8 = v.valBytes ∧
      decodeVal v (readBytes buf' off 8) = v := by
  cases hv : m.val with
  | I64 a =>
    cases v with
    | I64 x =>
      refine ⟨{ m with val := .I64 x }, store buf off (le64i x), ?_, rfl, ?_, ?_⟩
      · unfold Metric.set_val
        rw [hview, hv]
      · have h8 : (8 : Nat) = (le64i x).length := by simp
        rw [show MetricType.valBytes (.I64 x) = le64i x from rfl, h8,
          readBytes_store]
      · have h8 : (8 : Nat) = (le64i x).length := by simp
        rw [h8, readBytes_store,
          show le64i x = MetricType.valBytes (.I64 x) from rfl,
          decodeVal_valBytes hwf]
    | F64 b => rw [hv] at htag; cases htag
  | F64 a =>
    cases v with
    | I64 x => rw [hv] at htag; cases htag
    | F64 b =>
      refine ⟨{ m with val := .F64 b }, store buf off (le64 b), ?_, rfl, ?_, ?_⟩
      · unfold Metric.set_val
        rw [hview, hv]
      · have h8 : (8 : Nat) = (le64 b).length := by simp
        rw [show MetricType.valBytes (.F64 b) = le64 b from rfl, h8,
          readBytes_store]
      · have h8 : (8 : Nat) = (le64 b).length := by simp
        rw [h8, readBytes_store,
          show le64 b = MetricType.valBytes (.F64 b) from rfl,
          decodeVal_valBytes hwf]

/-- Witness for `set_val_writes_encoding`: the scenario updates
`update(trials, 5)` and `update(pi, 3.14)` on mapped descriptors (views
at the two-descriptor value slots 296 and 328). -/
theorem set_val_writes_encoding_witness :
    ({ trialsMetric with mmap_view := some 296 } : Metric).mmap_view = some 296 ∧
      (∃ m' buf',
        ({ trialsMetric with mmap_view := some 296 } : Metric).set_val
            (mmvBuf 0 0 0 0 [trialsMetric, piMetric]) (.I64 5) = .ok (m', buf') ∧
          m'.val = .I64 5 ∧
          readBytes buf' 296 8 = (MetricType.I64 5).valBytes ∧
          decodeVal (.I64 5) (readBytes buf' 296 8) = .I64 5) ∧
      (∃ m' buf',
        ({ piMetric with mmap_view := some 328 } : Metric).set_val
            (mmvBuf 0 0 0 0 [trialsMetric, piMetric]) (.F64 piBits) = .ok (m', buf') ∧
          m'.val = .F64 piBits ∧
          readBytes buf' 328 8 = (MetricType.F64 piBits).valBytes ∧
          decodeVal (.F64 piBits) (readBytes buf' 328 8) = .F64 piBits) :=
  ⟨rfl,
    set_val_writes_encoding _ _ (.I64 5) 296 rfl trivial (by decide),
    set_val_writes_encoding _ _ (.F64 piBits) 328 rfl trivial (by decide)⟩

/-- C6: a successful matching-tag update changes no byte of the mapping
outside the descriptor's own 8-byte slot `[off, off + 8)`; in particular
the header with both generation counters, every metric block, every
string block, and the other fields of the value block are untouched. -/
theorem set_val_frame (m : Metric) (buf : Nat → Nat) (v : MetricType)
    (off : Nat) (m' : Metric) (buf' : Nat → Nat)
    (hview : m.mmap_view = some off)
    (hok : m.set_val buf v = .ok (m', buf')) :
    ∀ p, p < off ∨ off + 8 ≤ p → buf' p = buf p := by
  intro p hp
  unfold Metric.set_val at hok
  rw [hview] at hok
  cases hv : m.val with
  | I64 a =>
    rw [hv] at hok
    cases v with
    | I64 x =>
      have hb : buf' = store buf off (le64i x) := by
        cases hok
        rfl
      rw [hb]
      exact store_of_notMem buf (by simp only [le64i_length]; omega)
    | F64 b => cases hok
  | F64 a =>
    rw [hv] at hok
    cases v with
    | I64 x => cases hok
    | F64 b =>
      have hb : buf' = store buf off (le64 b) := by
        cases hok
        rfl
      rw [hb]
      exact store_of_notMem buf (by simp only [le64_length]; omega)

/-- Witness for `set_val_frame`: the scenario update `update(trials, 5)`
leaves byte 0 (the header magic) unchanged. -/
theorem set_val_frame_witness :
    ({ trialsMetric with mmap_view := some 296 } : Metric).mmap_view = some 296 ∧
      ({ trialsMetric with mmap_view := some 296 } : Metric).set_val
          (mmvBuf 0 0 0 0 [trialsMetric, piMetric]) (.I64 5) =
        .ok ({ trialsMetric with mmap_view := some 296, val := .I64 5 },
          store (mmvBuf 0 0 0 0 [trialsMetric, piMetric]) 296 (le64i 5)) ∧
      ((0 : Nat) < 296 ∨ 296 + 8 ≤ 0) ∧
      store (mmvBuf 0 0 0 0 [trialsMetric, piMetric]) 296 (le64i 5) 0 =
        mmvBuf 0 0 0 0 [trialsMetric, piMetric] 0 :=
  ⟨rfl, rfl, Or.inl (by decide),
    set_val_frame { trialsMetric with mmap_view := some 296 }
      (mmvBuf 0 0 0 0 [trialsMetric, piMetric]) (.I64 5) 296
      { trialsMetric with mmap_view := some 296, val := .I64 5 }
      (store (mmvBuf 0 0 0 0 [trialsMetric, piMetric]) 296 (le64i 5))
      rfl rfl 0 (Or.inl (by decide))⟩

/-- C7: the updater fails with `NotMappedError` when the view handle is
absent, and with `TypeMismatchError` when the handle is present but the
new value's tag differs from the descriptor's tag. In both cases the
result is an error carrying no new state: the stored bytes and the
in-memory value field are left as they were. -/
theorem set_val_failure_modes (m : Metric) (buf : Nat → Nat) (v : MetricType) :
    (m.mmap_view = none → m.set_val buf v = .error .NotMappedError) ∧
      (∀ off, m.mmap_view = some off → ¬ m.val.sameTag v →
        m.set_val buf v = .error .TypeMismatchError) := by
  constructor
  · intro hnone
    unfold Metric.set_val
    rw [hnone]
  · intro off hsome htag
    unfold Metric.set_val
    rw [hsome]
    cases hv : m.val with
    | I64 a =>
      cases v with
      | I64 x => rw [hv] at htag; exact absurd trivial htag
      | F64 b => rfl
    | F64 a =>
      cases v with
      | I64 x => rfl
      | F64 b => rw [hv] at htag; exact absurd trivial htag

/-- Witness for `set_val_failure_modes`: an unmapped `trials` rejects any
update, and a mapped `trials` (integer) rejects a float value. -/
theorem set_val_failure_modes_witness :
    trialsMetric.set_val (fun _ => 0) (.I64 5) = .error .NotMappedError ∧
      ({ trialsMetric with mmap_view := some 296 } : Metric).set_val
        (fun _ => 0) (.F64 piBits) = .error .TypeMismatchError :=
  ⟨(set_val_failure_modes trialsMetric (fun _ => 0) (.I64 5)).1 rfl,
    (set_val_failure_modes { trialsMetric with mmap_view := some 296 }
      (fun _ => 0) (.F64 piBits)).2 296 rfl (by decide)⟩

/-- C8: descriptor construction performs only the three length checks and
touches no file: it fails with `ValidationError` exactly when the name's
encoded length is ≥ 64 bytes or either help text's encoded length is
≥ 256 bytes, and succeeds (producing the unmapped descriptor) whenever
the name is ≤ 63 bytes and each help text is ≤ 255 bytes. -/
theorem metric_new_validation (name : List Nat) (item : Nat) (sem : MetricSem)
    (indom dim : Nat) (v : MetricType) (sh lh : List Nat) :
    ((64 ≤ name.length ∨ 256 ≤ sh.length ∨ 256 ≤ lh.length) →
        Metric.new name item sem indom dim v sh lh = .error .ValidationError) ∧
      ((name.length ≤ 63 ∧ sh.length ≤ 255 ∧ lh.length ≤ 255) →
        Metric.new name item sem indom dim v sh lh =
          .ok { name := name, item := item, sem := sem, indom := indom,
                dim := dim, shorttext := sh, longtext := lh, val := v,
                mmap_view := none }) := by
  unfold Metric.new METRIC_NAME_MAX_LEN STRING_BLOCK_LEN
  constructor
  · intro h
    rw [if_neg (by omega)]
  · intro h
    rw [if_pos (by omega)]

/-- Witness for `metric_new_validation`: a 64-byte name (or a 256-byte
help text) is rejected; one byte under each capacity succeeds. -/
theorem metric_new_validation_witness :
    Metric.new (List.replicate 64 97) 0 .Counter 0 0 (.I64 0) [] []
        = .error .ValidationError ∧
      Metric.new [110] 0 .Counter 0 0 (.I64 0) (List.replicate 256 97) []
        = .error .ValidationError ∧
      Metric.new (List.replicate 63 97) 0 .Counter 0 0 (.I64 0)
          (List.replicate 255 97) (List.replicate 255 97)
        = .ok { name := List.replicate 63 97, item := 0, sem := .Counter,
                indom := 0, dim := 0, shorttext := List.replicate 255 97,
                longtext := List.replicate 255 97, val := .I64 0,
                mmap_view := none } :=
  ⟨(metric_new_validation (List.replicate 64 97) 0 .Counter 0 0 (.I64 0) [] []).1
      (Or.inl (List.length_replicate 64 97).symm.le),
    (metric_new_validation [110] 0 .Counter 0 0 (.I64 0)
        (List.replicate 256 97) []).1
      (Or.inr (Or.inl (List.length_replicate 256 97).symm.le)),
    (metric_new_validation (List.replicate 63 97) 0 .Counter 0 0 (.I64 0)
        (List.replicate 255 97) (List.replicate 255 97)).2
      ⟨(List.length_replicate 63 97).le, (List.length_replicate 255 97).le,
        (List.length_replicate 255 97).le⟩⟩

/-- C9 (amended): `map` does not create the file. When the configured
path is absent or not writable, the open step fails and `map` fails with
an `IoError`, leaving nothing written, nothing mapped and no metric
mutated (the error result carries no state). -/
theorem map_requires_existing_file (mmv : MMV) (fs : FileSys) (gen : Int)
    (pid : Nat) (ms : List Metric)
    (h : fs.present mmv.path = false ∨ fs.writable mmv.path = false) :
    mmv.map fs gen pid ms = .error .IoError := by
  unfold MMV.map openRW
  rcases h with h | h
  · rw [h]
    rfl
  · cases hp : fs.present mmv.path
    · rfl
    · rw [h]
      rfl

/-- Witness for `map_requires_existing_file`: on a file system without the
file (every path writable), `map` fails with `IoError`. -/
theorem map_requires_existing_file_witness :
    (fsNone.present "metrics.mmv" = false ∨
        fsNone.writable "metrics.mmv" = false) ∧
      (MMV.new "metrics.mmv" 0 0).map fsNone 0 0 [trialsMetric]
        = .error .IoError :=
  ⟨Or.inl rfl,
    map_requires_existing_file (MMV.new "metrics.mmv" 0 0) fsNone 0 0
      [trialsMetric] (Or.inl rfl)⟩

/-- C9 (counterexample to the claim as stated): the claim says `map`
creates the file at the configured path when it does not already exist;
but on a file system with no files (every path writable), `map` fails
with `IoError` instead of creating the file and proceeding —
`OpenOptions` is used without `.create(true)`. -/
theorem map_does_not_create_missing_file :
    (MMV.new "metrics.mmv" 0 0).map fsNone 0 0 [trialsMetric, piMetric]
      = .error .IoError := rfl

/-- C10: a successful `map` mutates only the view-handle field of each
descriptor: the returned list has the same length, every descriptor keeps
its name, item, semantics, instance domain, dimension, help texts and
in-memory value, and every descriptor's `mmap_view` is now set. -/
theorem map_mutates_only_views (mmv : MMV) (fs : FileSys) (gen : Int)
    (pid : Nat) (ms : List Metric) (sz : Nat) (buf : Nat → Nat)
    (ms' : List Metric) (hok : mmv.map fs gen pid ms = .ok (sz, buf, ms')) :
    ms'.length = ms.length ∧
      ∀ k (hk : k < ms.length) (hk' : k < ms'.length),
        sameDescriptor (ms'.get ⟨k, hk'⟩) (ms.get ⟨k, hk⟩) ∧
          ∃ o, (ms'.get ⟨k, hk'⟩).mmap_view = some o := by
  unfold MMV.map at hok
  cases h : openRW fs mmv.path with
  | error e => rw [h] at hok; cases hok
  | ok u =>
    rw [h] at hok
    cases hs : split_mmap_views ms with
    | none => rw [hs] at hok; cases hok
    | some ms'' =>
      rw [hs] at hok
      cases hok
      refine ⟨split_mmap_views_length ms _ hs, fun k hk hk' => ?_⟩
      obtain ⟨o, ho⟩ := split_mmap_views_get ms _ hs k hk hk'
      rw [ho]
      exact ⟨⟨rfl, rfl, rfl, rfl, rfl, rfl, rfl, rfl⟩, o, rfl⟩

/-- Witness for `map_mutates_only_views`: the two-descriptor scenario map
call. -/
theorem map_mutates_only_views_witness :
    (MMV.new "metrics.mmv" 0 0).map fsAll 0 0 [trialsMetric, piMetric] =
        .ok (mmvSize 2, mmvBuf 0 0 0 0 [trialsMetric, piMetric],
          mappedScenario) ∧
      (mappedScenario.length = 2 ∧
        ∀ k (hk : k < ([trialsMetric, piMetric] : List Metric).length)
          (hk' : k < mappedScenario.length),
          sameDescriptor (mappedScenario.get ⟨k, hk'⟩)
              (([trialsMetric, piMetric] : List Metric).get ⟨k, hk⟩) ∧
            ∃ o, (mappedScenario.get ⟨k, hk'⟩).mmap_view = some o) :=
  ⟨rfl, map_mutates_only_views (MMV.new "metrics.mmv" 0 0) fsAll 0 0
    [trialsMetric, piMetric] _ _ _ rfl⟩

/-- C4: the publication protocol's ordering. The write trace of a `map`
call starts with the magic and version, then writes generation-1; every
metric-block, value-block and string-block write (`bodyEvents`) comes
after it; the very last write of the whole trace is generation-2 at
offset 16 carrying the same value as generation-1; and in the final image
the generation-1 and generation-2 fields are byte-identical. -/
theorem generation_protocol (gen : Int) (flags pid cluster : Nat)
    (ms : List Metric) :
    allEvents gen flags pid cluster ms
      = [(0, magicBytes), (4, le32 1)] ++ (8, le64i gen) ::
          ([(16, le64 0), (24, le32 3), (28, le32 flags), (32, le32 pid),
            (36, le32 cluster),
            (40, le32 3), (44, le32 ms.length), (48, le64 metricSectionOffset),
            (56, le32 4), (60, le32 ms.length),
            (64, le64 (valueSectionOffset ms.length)),
            (72, le32 5), (76, le32 (2 * ms.length)),
            (80, le64 (stringSectionOffset ms.length))]
            ++ bodyEvents ms ++ [(16, le64i gen)]) ∧
      (allEvents gen flags pid cluster ms).getLast? = some (16, le64i gen) ∧
      readBytes (mmvBuf gen flags pid cluster ms) 8 8 = le64i gen ∧
      readBytes (mmvBuf gen flags pid cluster ms) 16 8
        = readBytes (mmvBuf gen flags pid cluster ms) 8 8 := by
  refine ⟨rfl, ?_, ?_, ?_⟩
  · show ((headerEvents gen flags pid cluster ms.length ++ bodyEvents ms)
      ++ [(16, le64i gen)]).getLast? = some (16, le64i gen)
    exact List.getLast?_concat _
  · exact read_header_event gen flags pid cluster ms 8 8 (le64i gen) (by simp)
      (by simp [headerEvents]) (by norm_num) (Or.inl (by norm_num))
  · rw [read_gen2, read_header_event gen flags pid cluster ms 8 8 (le64i gen)
      (by simp) (by simp [headerEvents]) (by norm_num) (Or.inl (by norm_num))]

/-- C2: the exact little-endian layout of the encoded image: magic
"MMV\0", version 1, the two generation fields, TOC count 3, flags, pid,
cluster id; the three TOC entries at 40, 56, 72 with section types 3/4/5,
counts N/N/2N and section offsets 88, 88+104N, 88+104N+32N; and for every
metric its nul-terminated name padded to 64 bytes, item, type code
(2 integer / 5 float), semantics code (Counter 1, Instant 3, Discrete 4),
dimension, instance domain, zero pad, the two absolute string-block
offsets, and its value block holding the 8-byte value encoding, zeroed
extra field, the absolute back-offset of its own metric block, and a
zeroed instance-block offset. -/
theorem mmv_image_layout (gen : Int) (flags pid cluster : Nat)
    (ms : List Metric) (hwf : ∀ m ∈ ms, m.wf) :
    (readBytes (mmvBuf gen flags pid cluster ms) 0 4 = magicBytes ∧
      readBytes (mmvBuf gen flags pid cluster ms) 4 4 = le32 1 ∧
      readBytes (mmvBuf gen flags pid cluster ms) 8 8 = le64i gen ∧
      readBytes (mmvBuf gen flags pid cluster ms) 16 8 = le64i gen ∧
      readBytes (mmvBuf gen flags pid cluster ms) 24 4 = le32 3 ∧
      readBytes (mmvBuf gen flags pid cluster ms) 28 4 = le32 flags ∧
      readBytes (mmvBuf gen flags pid cluster ms) 32 4 = le32 pid ∧
      readBytes (mmvBuf gen flags pid cluster ms) 36 4 = le32 cluster) ∧
    (readBytes (mmvBuf gen flags pid cluster ms) 40 4 = le32 3 ∧
      readBytes (mmvBuf gen flags pid cluster ms) 44 4 = le32 ms.length ∧
      readBytes (mmvBuf gen flags pid cluster ms) 48 8 = le64 88 ∧
      readBytes (mmvBuf gen flags pid cluster ms) 56 4 = le32 4 ∧
      readBytes (mmvBuf gen flags pid cluster ms) 60 4 = le32 ms.length ∧
      readBytes (mmvBuf gen flags pid cluster ms) 64 8
        = le64 (88 + 104 * ms.length) ∧
      readBytes (mmvBuf gen flags pid cluster ms) 72 4 = le32 5 ∧
      readBytes (mmvBuf gen flags pid cluster ms) 76 4 = le32 (2 * ms.length) ∧
      readBytes (mmvBuf gen flags pid cluster ms) 80 8
        = le64 (88 + 104 * ms.length + 32 * ms.length)) ∧
    ((∀ x : Int, (MetricType.I64 x).typeCode = 2) ∧
      (∀ b : Nat, (MetricType.F64 b).typeCode = 5) ∧
      MetricSem.Counter.code = 1 ∧ MetricSem.Instant.code = 3 ∧
      MetricSem.Discrete.code = 4) ∧
    ∀ i, ∀ hi : i < ms.length,
      metricBlockOffset i = 88 + 104 * i ∧
      valueBlockOffset ms.length i = 88 + 104 * ms.length + 32 * i ∧
      stringBlockOffset ms.length i
        = 88 + 104 * ms.length + 32 * ms.length + 512 * i ∧
      readBytes (mmvBuf gen flags pid cluster ms) (metricBlockOffset i) 64
        = ((ms.get ⟨i, hi⟩).name ++ [0])
          ++ List.replicate (64 - ((ms.get ⟨i, hi⟩).name.length + 1)) 0 ∧
      readBytes (mmvBuf gen flags pid cluster ms) (metricBlockOffset i + 64) 4
        = le32 (ms.get ⟨i, hi⟩).item ∧
      readBytes (mmvBuf gen flags pid cluster ms) (metricBlockOffset i + 68) 4
        = le32 (ms.get ⟨i, hi⟩).val.typeCode ∧
      readBytes (mmvBuf gen flags pid cluster ms) (metricBlockOffset i + 72) 4
        = le32 (ms.get ⟨i, hi⟩).sem.code ∧
      readBytes (mmvBuf gen flags pid cluster ms) (metricBlockOffset i + 76) 4
        = le32 (ms.get ⟨i, hi⟩).dim ∧
      readBytes (mmvBuf gen flags pid cluster ms) (metricBlockOffset i + 80) 4
        = le32 (ms.get ⟨i, hi⟩).indom ∧
      readBytes (mmvBuf gen flags pid cluster ms) (metricBlockOffset i + 84) 4
        = le32 0 ∧
      readBytes (mmvBuf gen flags pid cluster ms) (metricBlockOffset i + 88) 8
        = le64 (stringBlockOffset ms.length i) ∧
      readBytes (mmvBuf gen flags pid cluster ms) (metricBlockOffset i + 96) 8
        = le64 (stringBlockOffset ms.length i + 256) ∧
      readBytes (mmvBuf gen flags pid cluster ms) (valueBlockOffset ms.length i) 8
        = (ms.get ⟨i, hi⟩).val.valBytes ∧
      readBytes (mmvBuf gen flags pid cluster ms)
          (valueBlockOffset ms.length i + 8) 8 = le64 0 ∧
      readBytes (mmvBuf gen flags pid cluster ms)
          (valueBlockOffset ms.length i + 16) 8 = le64 (metricBlockOffset i) ∧
      readBytes (mmvBuf gen flags pid cluster ms)
          (valueBlockOffset ms.length i + 24) 8 = le64 0 := by
  refine ⟨⟨?_, ?_, ?_, ?_, ?_, ?_, ?_, ?_⟩, ⟨?_, ?_, ?_, ?_, ?_, ?_, ?_, ?_, ?_⟩,
    ⟨fun x => rfl, fun b => rfl, rfl, rfl, rfl⟩, ?_⟩
  · exact read_header_event gen flags pid cluster ms 0 4 magicBytes (by simp [magicBytes])
      (by simp [headerEvents]) (by norm_num) (Or.inl (by norm_num))
  · exact read_header_event gen flags pid cluster ms 4 4 (le32 1) (by simp)
      (by simp [headerEvents]) (by norm_num) (Or.inl (by norm_num))
  · exact read_header_event gen flags pid cluster ms 8 8 (le64i gen) (by simp)
      (by simp [headerEvents]) (by norm_num) (Or.inl (by norm_num))
  · exact read_gen2 gen flags pid cluster ms
  · exact read_header_event gen flags pid cluster ms 24 4 (le32 3) (by simp)
      (by simp [headerEvents]) (by norm_num) (Or.inr (by norm_num))
  · exact read_header_event gen flags pid cluster ms 28 4 (le32 flags) (by simp)
      (by simp [headerEvents]) (by norm_num) (Or.inr (by norm_num))
  · exact read_header_event gen flags pid cluster ms 32 4 (le32 pid) (by simp)
      (by simp [headerEvents]) (by norm_num) (Or.inr (by norm_num))
  · exact read_header_event gen flags pid cluster ms 36 4 (le32 cluster) (by simp)
      (by simp [headerEvents]) (by norm_num) (Or.inr (by norm_num))
  · exact read_header_event gen flags pid cluster ms 40 4 (le32 3) (by simp)
      (by simp [headerEvents]) (by norm_num) (Or.inr (by norm_num))
  · exact read_header_event gen flags pid cluster ms 44 4 (le32 ms.length) (by simp)
      (by simp [headerEvents]) (by norm_num) (Or.inr (by norm_num))
  · rw [show (88 : Nat) = metricSectionOffset from rfl]
    exact read_header_event gen flags pid cluster ms 48 8 (le64 metricSectionOffset)
      (by simp) (by simp [headerEvents]) (by norm_num) (Or.inr (by norm_num))
  · exact read_header_event gen flags pid cluster ms 56 4 (le32 4) (by simp)
      (by simp [headerEvents]) (by norm_num) (Or.inr (by norm_num))
  · exact read_header_event gen flags pid cluster ms 60 4 (le32 ms.length) (by simp)
      (by simp [headerEvents]) (by norm_num) (Or.inr (by norm_num))
  · rw [show (88 : Nat) + 104 * ms.length = valueSectionOffset ms.length from rfl]
    exact read_header_event gen flags pid cluster ms 64 8
      (le64 (valueSectionOffset ms.length))
      (by simp) (by simp [headerEvents]) (by norm_num) (Or.inr (by norm_num))
  · exact read_header_event gen flags pid cluster ms 72 4 (le32 5) (by simp)
      (by simp [headerEvents]) (by norm_num) (Or.inr (by norm_num))
  · exact read_header_event gen flags pid cluster ms 76 4 (le32 (2 * ms.length))
      (by simp) (by simp [headerEvents]) (by norm_num) (Or.inr (by norm_num))
  · rw [show (88 : Nat) + 104 * ms.length + 32 * ms.length
      = stringSectionOffset ms.length from rfl]
    exact read_header_event gen flags pid cluster ms 80 8
      (le64 (stringSectionOffset ms.length))
      (by simp) (by simp [headerEvents]) (by norm_num) (Or.inr (by norm_num))
  · intro i hi
    refine ⟨?_, ?_, ?_, read_metric_name gen flags pid cluster ms hwf i hi,
      ?_, ?_, ?_, ?_, ?_, ?_, ?_, ?_, ?_, ?_, ?_, ?_⟩
    · unfold metricBlockOffset metricSectionOffset HDR_LEN TOC_BLOCK_LEN
        METRIC_BLOCK_LEN
      omega
    · unfold valueBlockOffset valueSectionOffset metricSectionOffset HDR_LEN
        TOC_BLOCK_LEN METRIC_BLOCK_LEN VALUE_BLOCK_LEN
      omega
    · unfold stringBlockOffset stringSectionOffset valueSectionOffset
        metricSectionOffset HDR_LEN TOC_BLOCK_LEN METRIC_BLOCK_LEN
        VALUE_BLOCK_LEN STRING_BLOCK_LEN
      omega
    · exact read_metric_event gen flags pid cluster ms hwf i hi _ 4 _ (by simp)
        (by simp [metricEvents, METRIC_NAME_MAX_LEN])
    · exact read_metric_event gen flags pid cluster ms hwf i hi _ 4 _ (by simp)
        (by simp [metricEvents])
    · exact read_metric_event gen flags pid cluster ms hwf i hi _ 4 _ (by simp)
        (by simp [metricEvents])
    · exact read_metric_event gen flags pid cluster ms hwf i hi _ 4 _ (by simp)
        (by simp [metricEvents])
    · exact read_metric_event gen flags pid cluster ms hwf i hi _ 4 _ (by simp)
        (by simp [metricEvents])
    · exact read_metric_event gen flags pid cluster ms hwf i hi _ 4 _ (by simp)
        (by simp [metricEvents])
    · exact read_metric_event gen flags pid cluster ms hwf i hi _ 8 _ (by simp)
        (by simp [metricEvents])
    · rw [show stringBlockOffset ms.length i + 256
        = stringBlockOffset ms.length i + STRING_BLOCK_LEN from rfl]
      exact read_metric_event gen flags pid cluster ms hwf i hi _ 8 _ (by simp)
        (by simp [metricEvents])
    · exact read_metric_event gen flags pid cluster ms hwf i hi _ 8 _ (by simp)
        (by simp [metricEvents])
    · exact read_metric_event gen flags pid cluster ms hwf i hi _ 8 _ (by simp)
        (by simp [metricEvents])
    · exact read_metric_event gen flags pid cluster ms hwf i hi _ 8 _ (by simp)
        (by simp [metricEvents])
    · exact read_metric_event gen flags pid cluster ms hwf i hi _ 8 _ (by simp)
        (by simp [metricEvents])

/-- Witness for `mmv_image_layout`: the two-descriptor scenario satisfies
the length invariants, and a sample field of the concrete image. -/
theorem mmv_image_layout_witness :
    (∀ m ∈ ([trialsMetric, piMetric] : List Metric), m.wf) ∧
      readBytes (mmvBuf 1700000000 0 42 7 [trialsMetric, piMetric]) 0 4
        = magicBytes :=
  ⟨by decide,
    (mmv_image_layout 1700000000 0 42 7 [trialsMetric, piMetric] (by decide)).1.1⟩

end MMVSpec
